import Mathlib

/-
  Verification development for the sonofanton witness-log subsystem.

  The Python sources under src/system are shallowly embedded:
    - JSON values are the inductive type Json (objects are association lists,
      mirroring Python dicts, whose keys are unique; integers stand in for
      JSON numbers since the repository's records contain no floats);
    - bytes are lists of Nat (each < 256);
    - hashlib.sha256 is implemented concretely (FIPS 180-4) and checked
      against the standard test vectors;
    - json.dumps(obj, sort_keys=True, separators=(",", ":"), ensure_ascii=False)
      is serializeJson below;
    - filesystem reads and the external ssh-keygen invocation appear as an
      explicit input state (SysState); a Python exception escaping a function
      is an Except.error.
-/

set_option maxHeartbeats 2000000
set_option maxRecDepth 8192

/-- JSON values as produced by Python's json module; objects keep insertion
order, as Python dicts do. -/
inductive Json where
  | null
  | bool (b : Bool)
  | num (n : Int)
  | str (s : String)
  | arr (xs : List Json)
  | obj (kvs : List (String × Json))

/-- A record (Python dict with string keys), e.g. one event file's contents. -/
abbrev Rec := List (String × Json)

/-- Python d.get(k): the value at the first matching key, if any.
(Python dict keys are unique, so first match is the only match.) -/
def lookupKey (kvs : Rec) (k : String) : Option Json :=
  match kvs with
  | [] => none
  | (k', v) :: rest => if k' = k then some v else lookupKey rest k

/-- Python d.pop(k, None): the dict without key k. -/
def eraseKey (kvs : Rec) (k : String) : Rec :=
  kvs.filter (fun p => p.1 != k)

/-- Python d[k] = v: replace the entry if the key is present, else append.
(On dicts, whose keys are unique, replacing every matching entry and
replacing the single matching entry coincide.) -/
def setKey (kvs : Rec) (k : String) (v : Json) : Rec :=
  if kvs.any (fun p => p.1 == k) then
    kvs.map (fun p => if p.1 == k then (k, v) else p)
  else
    kvs ++ [(k, v)]

/-- Python truthiness of a JSON value (bool(x)). -/
def pyTruthy : Json → Bool
  | .null => false
  | .bool b => b
  | .num n => n != 0
  | .str s => !s.isEmpty
  | .arr xs => !xs.isEmpty
  | .obj kvs => !kvs.isEmpty

/-- Member access on an object value: some v when j is an object holding k. -/
def jMember (j : Json) (k : String) : Option Json :=
  match j with
  | .obj kvs => lookupKey kvs k
  | _ => none

/-- Lexicographic comparison of character lists by code point, matching
Python's string comparison. -/
def charsLe : List Char → List Char → Bool
  | [], _ => true
  | _ :: _, [] => false
  | c :: cs, d :: ds =>
    if c.toNat < d.toNat then true
    else if d.toNat < c.toNat then false
    else charsLe cs ds

/-- Python's s1 <= s2 on strings: lexicographic on code points. -/
def keyLe (a b : String) : Bool :=
  charsLe a.data b.data

/-- Insert a keyed pair into a list sorted by key. -/
def insertByKey {α : Type} (p : String × α) : List (String × α) → List (String × α)
  | [] => [p]
  | q :: qs => if keyLe p.1 q.1 then p :: q :: qs else q :: insertByKey p qs

/-- Sort an association list by key, as Python sorted does for sort_keys=True. -/
def sortByKey {α : Type} : List (String × α) → List (String × α)
  | [] => []
  | p :: ps => insertByKey p (sortByKey ps)

/-- Hex digit character, lowercase. -/
def hexDigitChar (n : Nat) : Char :=
  if n < 10 then Char.ofNat (48 + n) else Char.ofNat (87 + n)

/-- Escaping of one character inside a JSON string literal, as json.dumps
does with ensure_ascii=False: only the quote, the backslash and control
characters are escaped; non-ASCII text is left as-is. -/
def escapeChar (c : Char) : List Char :=
  let n := c.toNat
  if n = 34 then [Char.ofNat 92, Char.ofNat 34]
  else if n = 92 then [Char.ofNat 92, Char.ofNat 92]
  else if n = 10 then [Char.ofNat 92, 'n']
  else if n = 9 then [Char.ofNat 92, 't']
  else if n = 13 then [Char.ofNat 92, 'r']
  else if n = 8 then [Char.ofNat 92, 'b']
  else if n = 12 then [Char.ofNat 92, 'f']
  else if n < 32 then [Char.ofNat 92, 'u', '0', '0', hexDigitChar (n / 16), hexDigitChar (n % 16)]
  else [c]

/-- A JSON string literal: quoted and escaped. -/
def quoteJsonString (s : String) : String :=
  String.mk (Char.ofNat 34 :: s.data.foldr (fun c acc => escapeChar c ++ acc) [Char.ofNat 34])

/-- Comma-join the members of a serialized object: quoted key, colon, value. -/
def joinObjMembers : List (String × String) → String
  | [] => ""
  | [(k, v)] => quoteJsonString k ++ ":" ++ v
  | (k, v) :: q :: rest => quoteJsonString k ++ ":" ++ v ++ "," ++ joinObjMembers (q :: rest)

mutual

/-- json.dumps(obj, sort_keys=True, separators=(",", ":"), ensure_ascii=False):
keys sorted at every nesting level, no insignificant whitespace. -/
def serializeJson : Json → String
  | .null => "null"
  | .bool b => cond b "true" "false"
  | .num n => toString n
  | .str s => quoteJsonString s
  | .arr xs => "[" ++ serializeArr xs ++ "]"
  | .obj kvs => "\x7b" ++ joinObjMembers (sortByKey (serializePairs kvs)) ++ "\x7d"

/-- Comma-joined serialization of an array's elements. -/
def serializeArr : List Json → String
  | [] => ""
  | [x] => serializeJson x
  | x :: y :: rest => serializeJson x ++ "," ++ serializeArr (y :: rest)

/-- Serialize each value of an association list, keeping keys and order. -/
def serializePairs : List (String × Json) → List (String × String)
  | [] => []
  | (k, v) :: rest => (k, serializeJson v) :: serializePairs rest

end

/-- UTF-8 encoding of a string, as str.encode("utf-8"). -/
def utf8Bytes (s : String) : List Nat :=
  s.data.foldr
    (fun c acc =>
      let n := c.toNat
      if n < 128 then n :: acc
      else if n < 2048 then (192 + n / 64) :: (128 + n % 64) :: acc
      else if n < 65536 then (224 + n / 4096) :: (128 + (n / 64) % 64) :: (128 + n % 64) :: acc
      else (240 + n / 262144) :: (128 + (n / 4096) % 64) :: (128 + (n / 64) % 64) :: (128 + n % 64) :: acc)
    []

/-- Lowercase hex encoding of a byte list, as bytes.hex(). -/
def hexEncode (bs : List Nat) : String :=
  String.mk (bs.foldr (fun b acc => hexDigitChar (b / 16) :: hexDigitChar (b % 16) :: acc) [])

/-- Value of a hex digit character; call sites only pass valid hex
(bytes.fromhex would raise otherwise, but every string decoded in the
sources is a digest the system itself produced). -/
def hexVal (c : Char) : Nat :=
  let n := c.toNat
  if 48 ≤ n ∧ n ≤ 57 then n - 48
  else if 97 ≤ n ∧ n ≤ 102 then n - 87
  else if 65 ≤ n ∧ n ≤ 70 then n - 55
  else 0

/-- Lowercase hexadecimal digit characters (0-9, a-f). -/
def isLowerHexChar (c : Char) : Bool :=
  (48 ≤ c.toNat && c.toNat ≤ 57) || (97 ≤ c.toNat && c.toNat ≤ 102)

/-- Pairs of hex digits to bytes. -/
def bytesFromHexChars : List Char → List Nat
  | c1 :: c2 :: rest => (16 * hexVal c1 + hexVal c2) :: bytesFromHexChars rest
  | _ => []

/-- bytes.fromhex. -/
def bytesFromHex (s : String) : List Nat :=
  bytesFromHexChars s.data

/-- Truncation to 32 bits. -/
def w32 (n : Nat) : Nat := n % 4294967296

/-- Right rotation of a 32-bit word. -/
def rotr32 (n x : Nat) : Nat := w32 ((x >>> n) ||| (x <<< (32 - n)))

def ssig0 (x : Nat) : Nat := rotr32 7 x ^^^ rotr32 18 x ^^^ (x >>> 3)
def ssig1 (x : Nat) : Nat := rotr32 17 x ^^^ rotr32 19 x ^^^ (x >>> 10)
def bsig0 (x : Nat) : Nat := rotr32 2 x ^^^ rotr32 13 x ^^^ rotr32 22 x
def bsig1 (x : Nat) : Nat := rotr32 6 x ^^^ rotr32 11 x ^^^ rotr32 25 x
def chFn (x y z : Nat) : Nat := (x &&& y) ^^^ ((x ^^^ 4294967295) &&& z)
def majFn (x y z : Nat) : Nat := (x &&& y) ^^^ (x &&& z) ^^^ (y &&& z)

/-- The SHA-256 round constants (FIPS 180-4). -/
def sha256K : List Nat :=
  [0x428A2F98, 0x71374491, 0xB5C0FBCF, 0xE9B5DBA5, 0x3956C25B, 0x59F111F1, 0x923F82A4, 0xAB1C5ED5,
   0xD807AA98, 0x12835B01, 0x243185BE, 0x550C7DC3, 0x72BE5D74, 0x80DEB1FE, 0x9BDC06A7, 0xC19BF174,
   0xE49B69C1, 0xEFBE4786, 0x0FC19DC6, 0x240CA1CC, 0x2DE92C6F, 0x4A7484AA, 0x5CB0A9DC, 0x76F988DA,
   0x983E5152, 0xA831C66D, 0xB00327C8, 0xBF597FC7, 0xC6E00BF3, 0xD5A79147, 0x06CA6351, 0x14292967,
   0x27B70A85, 0x2E1B2138, 0x4D2C6DFC, 0x53380D13, 0x650A7354, 0x766A0ABB, 0x81C2C92E, 0x92722C85,
   0xA2BFE8A1, 0xA81A664B, 0xC24B8B70, 0xC76C51A3, 0xD192E819, 0xD6990624, 0xF40E3585, 0x106AA070,
   0x19A4C116, 0x1E376C08, 0x2748774C, 0x34B0BCB5, 0x391C0CB3, 0x4ED8AA4A, 0x5B9CCA4F, 0x682E6FF3,
   0x748F82EE, 0x78A5636F, 0x84C87814, 0x8CC70208, 0x90BEFFFA, 0xA4506CEB, 0xBEF9A3F7, 0xC67178F2]

/-- Big-endian bytes (4 at a time) to 32-bit words. -/
def bytesToWords : List Nat → List Nat
  | b0 :: b1 :: b2 :: b3 :: rest => (((b0 * 256 + b1) * 256 + b2) * 256 + b3) :: bytesToWords rest
  | _ => []

/-- Extend 16 message-schedule words to 64. -/
def extendSched (ws : List Nat) : List Nat :=
  (List.range 48).foldl
    (fun acc j =>
      acc ++ [w32 (ssig1 (acc.getD (j + 14) 0) + acc.getD (j + 9) 0 + ssig0 (acc.getD (j + 1) 0) + acc.getD j 0)])
    ws

/-- The eight working variables. -/
abbrev H8 := Nat × Nat × Nat × Nat × Nat × Nat × Nat × Nat

def sha256Init : H8 :=
  (0x6a09e667, 0xbb67ae85, 0x3c6ef372, 0xa54ff53a, 0x510e527f, 0x9b05688c, 0x1f83d9ab, 0x5be0cd19)

/-- One SHA-256 round. -/
def roundStep (st : H8) (kw : Nat × Nat) : H8 :=
  match st, kw with
  | (a, b, c, d, e, f, g, h), (k, w) =>
    let t1 := w32 (h + bsig1 e + chFn e f g + k + w)
    let t2 := w32 (bsig0 a + majFn a b c)
    (w32 (t1 + t2), a, b, c, w32 (d + t1), e, f, g)

/-- Compression of one 64-byte block. -/
def sha256Block (hs : H8) (block : List Nat) : H8 :=
  let ws := extendSched (bytesToWords block)
  match hs, (sha256K.zip ws).foldl roundStep hs with
  | (h0, h1, h2, h3, h4, h5, h6, h7), (a, b, c, d, e, f, g, h) =>
    (w32 (h0 + a), w32 (h1 + b), w32 (h2 + c), w32 (h3 + d),
     w32 (h4 + e), w32 (h5 + f), w32 (h6 + g), w32 (h7 + h))

/-- Big-endian encoding of v in n bytes. -/
def beBytes : Nat → Nat → List Nat
  | 0, _ => []
  | n + 1, v => beBytes n (v / 256) ++ [v % 256]

/-- SHA-256 padding: 0x80, zeros, 64-bit big-endian bit length. -/
def padMsg (msg : List Nat) : List Nat :=
  msg ++ [128] ++ List.replicate ((119 - (msg.length % 64)) % 64) 0 ++ beBytes 8 (8 * msg.length)

/-- Split into 64-byte blocks; the fuel (an upper bound on the block count,
in fact on the byte count) makes the recursion structural. -/
def chunk64 : Nat → List Nat → List (List Nat)
  | 0, _ => []
  | _ + 1, [] => []
  | n + 1, l => l.take 64 :: chunk64 n (l.drop 64)

/-- SHA-256 of a byte list (hashlib.sha256(data).digest()). -/
def sha256 (msg : List Nat) : List Nat :=
  let padded := padMsg msg
  match (chunk64 padded.length padded).foldl sha256Block sha256Init with
  | (h0, h1, h2, h3, h4, h5, h6, h7) =>
    beBytes 4 h0 ++ beBytes 4 h1 ++ beBytes 4 h2 ++ beBytes 4 h3 ++
    beBytes 4 h4 ++ beBytes 4 h5 ++ beBytes 4 h6 ++ beBytes 4 h7

/-- The 64-hex-zero sentinel "0" * 64. -/
def zeros64 : String :=
  String.mk (List.replicate 64 '0')

/-- Strip the chain fields before hashing: payload.pop("event_hash", None);
payload.pop("prev_hash", None) on a copy of the record, as done identically in
upgrade_witness_log.compute_chain and build_verify.verify_chain. -/
def stripHashFields (ev : Rec) : Rec :=
  eraseKey (eraseKey ev "event_hash") "prev_hash"

/-- Python ev.get(k) == v for a string v: true exactly when the key is
present with that string value (a non-string value never equals a str). -/
def matchesStr (ev : Rec) (k : String) (v : String) : Bool :=
  match lookupKey ev k with
  | some (Json.str s) => s == v
  | _ => false

namespace UpgradeWitnessLog

/-- canonical_bytes of src/system/upgrade_witness_log.py: json.dumps with
sorted keys, no whitespace, utf-8. -/
def canonical_bytes (j : Json) : List Nat :=
  utf8Bytes (serializeJson j)

/-- sha256_hex of src/system/upgrade_witness_log.py. -/
def sha256_hex (data : List Nat) : String :=
  hexEncode (sha256 data)

/-- One level of the Merkle loop body: adjacent pairs hashed; an odd tail
pairs the final node with itself (right = layer[i+1] if i+1 < len else
layer[i]). -/
def merklePairs : List (List Nat) → List (List Nat)
  | [] => []
  | [x] => [sha256 (x ++ x)]
  | x :: y :: rest => sha256 (x ++ y) :: merklePairs rest

/-- The while len(layer) > 1 loop; each pass at least halves a level of
length greater than one, so a fuel equal to the initial length is enough to
run the loop to completion. -/
def merkleLevelGo : Nat → List (List Nat) → List (List Nat)
  | 0, l => l
  | n + 1, l => if l.length ≤ 1 then l else merkleLevelGo n (merklePairs l)

/-- merkle_root_hex of src/system/upgrade_witness_log.py: None on an empty
input, else the root of the pairwise-hashing loop (layer[0].hex()). -/
def merkle_root_hex (hashes : List String) : Option String :=
  if hashes.isEmpty then none
  else some (hexEncode ((merkleLevelGo hashes.length (hashes.map bytesFromHex)).headD []))

/-- The loop body of compute_chain, with the running prev made explicit. -/
def compute_chain_go (prev : String) : List (String × Rec) → List (String × Rec)
  | [] => []
  | (p, ev) :: rest =>
    let payload := stripHashFields ev
    let h := sha256_hex (bytesFromHex prev ++ canonical_bytes (Json.obj payload))
    let ev1 := if matchesStr ev "prev_hash" prev then ev else setKey ev "prev_hash" (Json.str prev)
    let ev2 := if matchesStr ev1 "event_hash" h then ev1 else setKey ev1 "event_hash" (Json.str h)
    (p, ev2) :: compute_chain_go h rest

/-- compute_chain of src/system/upgrade_witness_log.py (events paired with
their file paths, in ascending-identifier order). -/
def compute_chain (events : List (String × Rec)) : List (String × Rec) :=
  compute_chain_go zeros64 events

/-- Python f-string formatting with 06d. -/
def pad6 (n : Nat) : String :=
  String.mk (List.replicate (6 - (toString n).length) (Char.ofNat 48)) ++ toString n

/-- range(cadence, len(event_hashes) + 1, cadence) for a positive cadence. -/
def multiplesOf (cadence len : Nat) : List Nat :=
  (List.range (len / cadence)).map (fun k => (k + 1) * cadence)

/-- The windowed checkpoint file name events_NNNNNN.json. -/
def checkpointFileName (i : Nat) : String :=
  "events_" ++ pad6 i ++ ".json"

/-- Python window[-1]; every call site passes a non-empty window. -/
def pyLast (l : List String) : String :=
  (l.getLast?).getD ""

/-- write_checkpoints of src/system/upgrade_witness_log.py, as the list of
(file name, contents) writes it performs, in order; datetime.now is the
explicit argument now. -/
def write_checkpoints (event_hashes : List String) (cadence : Nat) (now : String) : List (String × Json) :=
  let wins := (multiplesOf cadence event_hashes.length).filterMap (fun i =>
    let window := event_hashes.take i
    match merkle_root_hex window with
    | none => none
    | some root => some (checkpointFileName i, Json.obj
        [("schema_version", Json.str "1.0.0"),
         ("type", Json.str "merkle_checkpoint"),
         ("algorithm", Json.str "sha256"),
         ("event_count", Json.num i),
         ("head_event_hash", Json.str (pyLast window)),
         ("merkle_root", Json.str root),
         ("generated_at", Json.str now),
         ("cadence", Json.num cadence)]))
  let latest :=
    if event_hashes.isEmpty then []
    else [("latest.json", Json.obj
        [("schema_version", Json.str "1.0.0"),
         ("type", Json.str "merkle_checkpoint_latest"),
         ("algorithm", Json.str "sha256"),
         ("event_count", Json.num event_hashes.length),
         ("head_event_hash", Json.str (pyLast event_hashes)),
         ("merkle_root", match merkle_root_hex event_hashes with
            | some r => Json.str r
            | none => Json.null),
         ("generated_at", Json.str now)])]
  wins ++ latest

end UpgradeWitnessLog

/-- Applying a sequence of file writes to a store of (file name, contents):
each write overwrites the file if present, else creates it. -/
def applyWrites (store : List (String × Json)) (writes : List (String × Json)) : List (String × Json) :=
  writes.foldl (fun st pc => setKey st pc.1 pc.2) store

/-- A Python exception escaping a function. -/
inductive PyErr where
  | keyError
  | typeError
  | attributeError
  | binasciiError
  | fileNotFound
deriving DecidableEq

/-- The input state read by src/system/build_verify.py: the parse results
and existence of the files it touches, the parse results of the
timestamp-named event files in ascending-identifier order, the outcome of
the one external ssh-keygen -Y verify invocation (none when the tool cannot
run, raising FileNotFoundError), and the wall-clock time string. -/
structure SysState where
  sigRead : Option Json
  sigExists : Bool
  chkRead : Option Json
  chkExists : Bool
  allowedExists : Bool
  sshVerify : Option Bool
  eventReads : List (Option Json)
  now : String

namespace BuildVerify

/-- canonical_bytes of src/system/build_verify.py (same routine). -/
def canonical_bytes (j : Json) : List Nat :=
  utf8Bytes (serializeJson j)

/-- sha256_hex of src/system/build_verify.py. -/
def sha256_hex (b : List Nat) : String :=
  hexEncode (sha256 b)

/-- The loop of verify_chain, with the running prev made explicit. -/
def verify_chain_go (prev : String) : List Rec → Bool
  | [] => true
  | ev :: rest =>
    if !matchesStr ev "prev_hash" prev then false
    else
      let payload := stripHashFields ev
      let h := sha256_hex (bytesFromHex prev ++ canonical_bytes (Json.obj payload))
      if !matchesStr ev "event_hash" h then false
      else verify_chain_go h rest

/-- verify_chain of src/system/build_verify.py. -/
def verify_chain (events : List Rec) : Bool :=
  verify_chain_go zeros64 events

/-- Characters of the standard base64 alphabet (excluding padding). -/
def isB64Char (c : Char) : Bool :=
  (65 ≤ c.toNat && c.toNat ≤ 90) || (97 ≤ c.toNat && c.toNat ≤ 122) ||
  (48 ≤ c.toNat && c.toNat ≤ 57) || c == Char.ofNat 43 || c == Char.ofNat 47

/-- Whether base64.b64decode succeeds: CPython discards characters outside
the alphabet, then raises binascii.Error unless the remaining length
(padding included) is a multiple of four. The decoded bytes themselves are
only ever handed to the external verifier, which is abstracted by
SysState.sshVerify, so success is all that matters here. -/
def b64DecodeOk (s : String) : Bool :=
  (s.data.filter (fun c => isB64Char c || c == Char.ofNat 61)).length % 4 == 0

/-- verify_checkpoint_signature of src/system/build_verify.py. Returns
false when any of the three files is missing or the signature JSON is
unreadable or empty; a sig object without a "signature" key raises KeyError,
a malformed base64 value raises binascii.Error, a non-string value raises
TypeError, and a missing ssh-keygen binary raises FileNotFoundError — all
uncaught. -/
def verify_checkpoint_signature (s : SysState) : Except PyErr Bool :=
  let truthy := match s.sigRead with
    | some j => pyTruthy j
    | none => false
  if !truthy || !s.sigExists || !s.chkExists || !s.allowedExists then .ok false
  else match s.sigRead with
    | some (Json.obj kvs) =>
      (match lookupKey kvs "signature" with
       | none => .error .keyError
       | some (Json.str sig64) =>
         if b64DecodeOk sig64 then
           match s.sshVerify with
           | none => .error .fileNotFound
           | some ok => .ok ok
         else .error .binasciiError
       | some _ => .error .typeError)
    | _ => .error .typeError

/-- The event records main keeps: read_json results that are dicts
(isinstance(ev, dict)); everything else is dropped. -/
def parsedEvents (s : SysState) : List Rec :=
  s.eventReads.filterMap (fun r =>
    match r with
    | some (Json.obj kvs) => some kvs
    | _ => none)

/-- read_json(CHECKPOINT_JSON) or {}: the parsed checkpoint, with any falsy
or unreadable result replaced by the empty dict. -/
def checkpointVal (s : SysState) : Json :=
  match s.chkRead with
  | none => Json.obj []
  | some j => if pyTruthy j then j else Json.obj []

/-- Python checkpoint.get(k): None default on a dict; on a non-dict value
the attribute access raises AttributeError. -/
def pyDictGet (j : Json) (k : String) : Except PyErr Json :=
  match j with
  | .obj kvs => .ok ((lookupKey kvs k).getD Json.null)
  | _ => .error .attributeError

/-- main of src/system/build_verify.py, as a function from the input state
to (exit code, report written to witness/verify.json); a Python exception
escaping main is an error value. The chain.event_count field is count if
isinstance(count, int) else len(events); Python bool is a subclass of int,
so a boolean stored count also passes the isinstance check and is copied
verbatim. -/
def main (s : SysState) : Except PyErr (Nat × Json) := do
  let checkpoint := checkpointVal s
  let sig_ok ← verify_checkpoint_signature s
  let events := parsedEvents s
  let chain_ok := verify_chain events
  let head ← pyDictGet checkpoint "head_event_hash"
  let count ← pyDictGet checkpoint "event_count"
  let merkle ← pyDictGet checkpoint "merkle_root"
  let gen ← pyDictGet checkpoint "generated_at"
  let out := Json.obj
    [("schema_version", Json.str "1.0.0"),
     ("verified_at", Json.str s.now),
     ("verification_scope", Json.str "full_history"),
     ("chain", Json.obj
       [("event_count", match count with
          | Json.num n => Json.num n
          | Json.bool b => Json.bool b
          | _ => Json.num (events.length : Int)),
        ("head_event_hash", head),
        ("hash_chain_valid", Json.bool chain_ok)]),
     ("checkpoint", Json.obj
       [("merkle_root", merkle),
        ("event_count", count),
        ("head_event_hash", head),
        ("generated_at", gen),
        ("signature_valid", Json.bool sig_ok),
        ("signing_key_id", Json.str "sonofanton_checkpoint_ed25519")])]
  pure (0, out)

end BuildVerify

namespace SignCheckpoint

/-- canonical_bytes of src/system/sign_checkpoint.py (same routine again). -/
def canonical_bytes (j : Json) : List Nat :=
  utf8Bytes (serializeJson j)

end SignCheckpoint

namespace BuildStatus

/-- Python r.get(k) with None default on a record. -/
def pyGet (r : Rec) (k : String) : Json :=
  (lookupKey r k).getD Json.null

/-- Python (x or {}). -/
def orEmptyJson (j : Json) : Json :=
  if pyTruthy j then j else Json.obj []

/-- Python j.get(k) where j is a dict value inside a report. -/
def pyGetJ (j : Json) (k : String) : Json :=
  match j with
  | .obj kvs => (lookupKey kvs k).getD Json.null
  | _ => Json.null

/-- The "verification" object of src/system/build_status.py main
(lines 112-120), built from the parsed witness verify.json report. -/
def verification_section (verify_json : Rec) : Json :=
  let chain := orEmptyJson (pyGet verify_json "chain")
  let chk := orEmptyJson (pyGet verify_json "checkpoint")
  Json.obj
    [("verified_at", pyGet verify_json "verified_at"),
     ("hash_chain_valid", pyGetJ chain "hash_chain_valid"),
     ("checkpoint_signature_valid", pyGetJ chk "signature_valid"),
     ("signing_key_id", pyGetJ chk "signing_key_id"),
     ("checkpoint_age_seconds", pyGetJ chk "age_seconds"),
     ("checkpoint_considered_fresh", pyGetJ chk "considered_fresh"),
     ("checkpoint_freshness_threshold_seconds", pyGetJ chk "freshness_threshold_seconds")]

end BuildStatus

/-- Derived from the specification of the chain pass (spec section 4.2): the
running prev before position i, seeded at prevSeed, over the stripped
payloads of the given records; position i's event hash is the prev before
position i + 1. -/
def specPrevFrom (prevSeed : String) (events : List Rec) : Nat → String
  | 0 => prevSeed
  | i + 1 =>
    hexEncode (sha256 (bytesFromHex (specPrevFrom prevSeed events i) ++
      utf8Bytes (serializeJson (Json.obj (stripHashFields (events.getD i []))))))

/-- Derived from the specification: the prev value before event i, seeded
with the 64-hex-zero sentinel. -/
def specPrev (events : List Rec) (i : Nat) : String :=
  specPrevFrom zeros64 events i

mutual

/-- Recursively sort every object's keys: the canonical normal form of a
JSON value under reordering of object keys at every nesting level. -/
def deepSort : Json → Json
  | .null => .null
  | .bool b => .bool b
  | .num n => .num n
  | .str s => .str s
  | .arr xs => .arr (deepSortList xs)
  | .obj kvs => .obj (sortByKey (deepSortPairs kvs))

def deepSortList : List Json → List Json
  | [] => []
  | x :: xs => deepSort x :: deepSortList xs

def deepSortPairs : List (String × Json) → List (String × Json)
  | [] => []
  | (k, v) :: rest => (k, deepSort v) :: deepSortPairs rest

end

/-- The digest assigned to a record chained after prev:
sha256(prev_bytes || canonical(payload without hash fields)).hex(). -/
def chainHash (ev : Rec) (prev : String) : String :=
  UpgradeWitnessLog.sha256_hex (bytesFromHex prev ++
    UpgradeWitnessLog.canonical_bytes (Json.obj (stripHashFields ev)))

/-- The record as rewritten by one iteration of compute_chain. -/
def chainedRec (ev : Rec) (prev : String) : Rec :=
  let h := chainHash ev prev
  let ev1 := if matchesStr ev "prev_hash" prev then ev else setKey ev "prev_hash" (Json.str prev)
  if matchesStr ev1 "event_hash" h then ev1 else setKey ev1 "event_hash" (Json.str h)

/-- Python kvs.get(k) with a None default, on a parsed dict. -/
def pyGetD (kvs : Rec) (k : String) : Json :=
  (lookupKey kvs k).getD Json.null

/-- The record inside checkpointVal when it is an object (it is the empty
record otherwise; main raises before building the report in that case). -/
def storedCheckpoint (s : SysState) : Rec :=
  match BuildVerify.checkpointVal s with
  | Json.obj kvs => kvs
  | _ => []

/-- The report build_verify.main writes when it completes: every checkpoint
field is the stored checkpoint value copied verbatim, chain.event_count is
the stored event_count when it is an integer or a boolean (Python bools are
ints for the isinstance check) and the parsed-event count otherwise, and
the two computed booleans are chain validity and signature validity. -/
def reportOf (s : SysState) (sigOk : Bool) : Json :=
  Json.obj
    [("schema_version", Json.str "1.0.0"),
     ("verified_at", Json.str s.now),
     ("verification_scope", Json.str "full_history"),
     ("chain", Json.obj
       [("event_count", match pyGetD (storedCheckpoint s) "event_count" with
          | Json.num n => Json.num n
          | Json.bool b => Json.bool b
          | _ => Json.num ((BuildVerify.parsedEvents s).length : Int)),
        ("head_event_hash", pyGetD (storedCheckpoint s) "head_event_hash"),
        ("hash_chain_valid", Json.bool (BuildVerify.verify_chain (BuildVerify.parsedEvents s)))]),
     ("checkpoint", Json.obj
       [("merkle_root", pyGetD (storedCheckpoint s) "merkle_root"),
        ("event_count", pyGetD (storedCheckpoint s) "event_count"),
        ("head_event_hash", pyGetD (storedCheckpoint s) "head_event_hash"),
        ("generated_at", pyGetD (storedCheckpoint s) "generated_at"),
        ("signature_valid", Json.bool sigOk),
        ("signing_key_id", Json.str "sonofanton_checkpoint_ed25519")])]

/-- Event hashes used by the concrete checkpoint-pass scenarios: a 64-hex
digest string. -/
def hexA : String := String.mk (List.replicate 64 'a')

/-- Ten identical event hashes, enough for one windowed checkpoint at the
default cadence of 10. -/
def tenHashes : List String := List.replicate 10 hexA

/-- A one-event input to the chain pass. -/
def oneEvent : List (String × Rec) := [("f", [("a", Json.num 1)])]

/-- The record stored for that event after a chain pass. -/
def chainedEvent : Rec :=
  ((UpgradeWitnessLog.compute_chain oneEvent).headD ("", [])).2

/-- System state: stored checkpoint claims event_count 999 while exactly one
event file parses; signature files absent. -/
def stateCount999 : SysState :=
  { sigRead := none, sigExists := false,
    chkRead := some (Json.obj [("event_count", Json.num 999)]),
    chkExists := true, allowedExists := true, sshVerify := none,
    eventReads := [some (Json.obj [("a", Json.num 1)])], now := "t" }

/-- System state: stored checkpoint whose event_count is JSON true; Python
isinstance(True, int) holds, so the program copies the boolean verbatim as
the chain count. -/
def stateCountBool : SysState :=
  { sigRead := none, sigExists := false,
    chkRead := some (Json.obj [("event_count", Json.bool true)]),
    chkExists := true, allowedExists := true, sshVerify := none,
    eventReads := [some (Json.obj [("a", Json.num 1)])], now := "t" }

/-- System state: all three files present, signature JSON parses but has no
"signature" field. -/
def stateNoSigField : SysState :=
  { sigRead := some (Json.obj [("algorithm", Json.str "ed25519")]), sigExists := true,
    chkRead := some (Json.obj [("event_count", Json.num 1)]),
    chkExists := true, allowedExists := true, sshVerify := some true,
    eventReads := [], now := "t" }

/-- System state: one correctly-chained event file followed by one
unparsable event file. -/
def stateBadTail : SysState :=
  { sigRead := none, sigExists := false, chkRead := none, chkExists := false,
    allowedExists := false, sshVerify := none,
    eventReads := [some (Json.obj chainedEvent), none], now := "t" }

/-- System state: the only event file breaks the chain (wrong prev_hash) and
the signature cannot be valid (no files). -/
def stateBroken : SysState :=
  { sigRead := none, sigExists := false, chkRead := none, chkExists := false,
    allowedExists := false, sshVerify := none,
    eventReads := [some (Json.obj [("prev_hash", Json.str "bad")])], now := "t" }

theorem lookupKey_of_not_any (l : Rec) (k : String)
    (h : l.any (fun p => p.1 == k) = false) : lookupKey l k = none := by
  induction l with
  | nil => rfl
  | cons p rest ih =>
    simp only [List.any_cons, Bool.or_eq_false_iff] at h
    obtain ⟨h1, h2⟩ := h
    obtain ⟨k', v'⟩ := p
    simp only [lookupKey]
    rw [if_neg, ih h2]
    intro hk
    simp [hk] at h1

theorem lookupKey_append_right (l1 l2 : Rec) (k : String)
    (h : lookupKey l1 k = none) : lookupKey (l1 ++ l2) k = lookupKey l2 k := by
  induction l1 with
  | nil => rfl
  | cons p rest ih =>
    obtain ⟨k', v'⟩ := p
    simp only [lookupKey, List.cons_append] at *
    by_cases hk : k' = k
    · simp [hk] at h
    · rw [if_neg hk] at h ⊢
      exact ih h

theorem setEntry_of_eq (k k1 : String) (v v1 : Json) (h : k1 = k) :
    (if k1 == k then ((k, v) : String × Json) else (k1, v1)) = (k, v) := by
  simp [h]

theorem setEntry_of_ne (k k1 : String) (v v1 : Json) (h : ¬k1 = k) :
    (if k1 == k then ((k, v) : String × Json) else (k1, v1)) = (k1, v1) := by
  simp [h]

theorem lookupKey_mapSet (l : Rec) (k : String) (v : Json) :
    lookupKey (l.map (fun p => if p.1 == k then (k, v) else p)) k =
      if l.any (fun p => p.1 == k) then some v else none := by
  induction l with
  | nil => rfl
  | cons p rest ih =>
    obtain ⟨k', v'⟩ := p
    simp only [List.map_cons]
    by_cases hk : k' = k
    · subst hk
      rw [setEntry_of_eq k' k' v v' rfl]
      simp [lookupKey]
    · rw [setEntry_of_ne k k' v v' hk]
      simp only [lookupKey]
      rw [if_neg hk, ih]
      have hb : (k' == k) = false := by simp [hk]
      simp only [List.any_cons, hb, Bool.false_or]

theorem lookupKey_setKey_self (l : Rec) (k : String) (v : Json) :
    lookupKey (setKey l k v) k = some v := by
  unfold setKey
  by_cases h : l.any (fun p => p.1 == k) = true
  · rw [if_pos h, lookupKey_mapSet, if_pos h]
  · have h' : l.any (fun p => p.1 == k) = false := by
      revert h; cases l.any (fun p => p.1 == k) <;> simp
    rw [if_neg (by simp [h']), lookupKey_append_right _ _ _ (lookupKey_of_not_any l k h')]
    simp [lookupKey]

theorem lookupKey_mapSet_other (l : Rec) (k k' : String) (v : Json) (hne : k' ≠ k) :
    lookupKey (l.map (fun p => if p.1 == k then (k, v) else p)) k' = lookupKey l k' := by
  have h1 : k ≠ k' := Ne.symm hne
  induction l with
  | nil => rfl
  | cons p rest ih =>
    obtain ⟨k1, v1⟩ := p
    simp only [List.map_cons]
    by_cases hk : k1 = k
    · subst hk
      rw [setEntry_of_eq k1 k1 v v1 rfl]
      simp only [lookupKey]
      rw [if_neg h1, if_neg h1]
      exact ih
    · rw [setEntry_of_ne k k1 v v1 hk]
      simp only [lookupKey]
      by_cases hk1 : k1 = k'
      · rw [if_pos hk1, if_pos hk1]
      · rw [if_neg hk1, if_neg hk1]
        exact ih

theorem lookupKey_append_single_other (l : Rec) (k k' : String) (v : Json) (hne : k' ≠ k) :
    lookupKey (l ++ [(k, v)]) k' = lookupKey l k' := by
  have hk : ¬(k = k') := fun h => hne (Eq.symm h)
  induction l with
  | nil =>
    simp only [List.nil_append, lookupKey]
    rw [if_neg hk]
  | cons p rest ih =>
    obtain ⟨k1, v1⟩ := p
    simp only [List.cons_append, lookupKey]
    by_cases h1 : k1 = k'
    · rw [if_pos h1, if_pos h1]
    · rw [if_neg h1, if_neg h1]
      exact ih

theorem lookupKey_setKey_other (l : Rec) (k k' : String) (v : Json) (hne : k' ≠ k) :
    lookupKey (setKey l k v) k' = lookupKey l k' := by
  unfold setKey
  by_cases h : l.any (fun p => p.1 == k) = true
  · rw [if_pos h, lookupKey_mapSet_other _ _ _ _ hne]
  · rw [if_neg h, lookupKey_append_single_other _ _ _ _ hne]

theorem filterKey_map_id (l : Rec) (k : String) (v : Json) :
    (l.map (fun p => if p.1 == k then (k, v) else p)).filter (fun p => p.1 != k) =
      l.filter (fun p => p.1 != k) := by
  induction l with
  | nil => rfl
  | cons p rest ih =>
    obtain ⟨k1, v1⟩ := p
    simp only [List.map_cons]
    by_cases hk : k1 = k
    · subst hk
      rw [setEntry_of_eq k1 k1 v v1 rfl]
      rw [@List.filter_cons_of_neg _ (fun p => p.1 != k1) (k1, v)
            (List.map (fun p => if p.1 == k1 then (k1, v) else p) rest) (by simp),
          @List.filter_cons_of_neg _ (fun p => p.1 != k1) (k1, v1) rest (by simp)]
      exact ih
    · rw [setEntry_of_ne k k1 v v1 hk]
      rw [@List.filter_cons_of_pos _ (fun p => p.1 != k) (k1, v1)
            (List.map (fun p => if p.1 == k then (k, v) else p) rest) (by simp [hk]),
          @List.filter_cons_of_pos _ (fun p => p.1 != k) (k1, v1) rest (by simp [hk]), ih]

theorem eraseKey_setKey (l : Rec) (k : String) (v : Json) :
    eraseKey (setKey l k v) k = eraseKey l k := by
  unfold setKey eraseKey
  by_cases h : l.any (fun p => p.1 == k) = true
  · rw [if_pos h, filterKey_map_id]
  · rw [if_neg h, List.filter_append]
    simp [List.filter]

theorem eraseKey_comm (l : Rec) (k1 k2 : String) :
    eraseKey (eraseKey l k1) k2 = eraseKey (eraseKey l k2) k1 := by
  unfold eraseKey
  rw [List.filter_filter, List.filter_filter]
  congr 1
  funext p
  exact Bool.and_comm _ _

theorem stripHashFields_setKey_prev (ev : Rec) (v : Json) :
    stripHashFields (setKey ev "prev_hash" v) = stripHashFields ev := by
  unfold stripHashFields
  rw [eraseKey_comm, eraseKey_setKey, eraseKey_comm]

theorem stripHashFields_setKey_event (ev : Rec) (v : Json) :
    stripHashFields (setKey ev "event_hash" v) = stripHashFields ev := by
  unfold stripHashFields
  rw [eraseKey_setKey]

theorem matchesStr_setKey_self (ev : Rec) (k v : String) :
    matchesStr (setKey ev k (Json.str v)) k v = true := by
  unfold matchesStr
  rw [lookupKey_setKey_self]
  simp

theorem matchesStr_setKey_other (ev : Rec) (k k' v : String) (w : Json) (hne : k' ≠ k) :
    matchesStr (setKey ev k w) k' v = matchesStr ev k' v := by
  unfold matchesStr
  rw [lookupKey_setKey_other _ _ _ _ hne]

theorem compute_chain_go_cons (prev p : String) (ev : Rec) (rest : List (String × Rec)) :
    UpgradeWitnessLog.compute_chain_go prev ((p, ev) :: rest) =
      (p, chainedRec ev prev) :: UpgradeWitnessLog.compute_chain_go (chainHash ev prev) rest := rfl

theorem verify_chain_go_cons (prev : String) (ev : Rec) (rest : List Rec) :
    BuildVerify.verify_chain_go prev (ev :: rest) =
      if !matchesStr ev "prev_hash" prev then false
      else if !matchesStr ev "event_hash" (chainHash ev prev) then false
      else BuildVerify.verify_chain_go (chainHash ev prev) rest := rfl

theorem matchesStr_of_true (ev : Rec) (k v : String) (h : matchesStr ev k v = true) :
    lookupKey ev k = some (Json.str v) := by
  unfold matchesStr at h
  cases hl : lookupKey ev k with
  | none => rw [hl] at h; cases h
  | some j =>
    rw [hl] at h
    cases j with
    | str s =>
      have : s = v := by simpa using h
      rw [this]
    | null => cases h
    | bool b => cases h
    | num n => cases h
    | arr xs => cases h
    | obj kvs => cases h

theorem chainedRec_prev (ev : Rec) (prev : String) :
    matchesStr (chainedRec ev prev) "prev_hash" prev = true := by
  unfold chainedRec
  by_cases c2 : matchesStr (if matchesStr ev "prev_hash" prev then ev
      else setKey ev "prev_hash" (Json.str prev)) "event_hash" (chainHash ev prev)
  · rw [if_pos c2]
    by_cases c1 : matchesStr ev "prev_hash" prev
    · rw [if_pos c1]; exact c1
    · rw [if_neg c1]; exact matchesStr_setKey_self _ _ _
  · rw [if_neg c2]
    rw [matchesStr_setKey_other _ _ _ _ _ (by decide)]
    by_cases c1 : matchesStr ev "prev_hash" prev
    · rw [if_pos c1]; exact c1
    · rw [if_neg c1]; exact matchesStr_setKey_self _ _ _

theorem chainedRec_hash (ev : Rec) (prev : String) :
    matchesStr (chainedRec ev prev) "event_hash" (chainHash ev prev) = true := by
  unfold chainedRec
  by_cases c2 : matchesStr (if matchesStr ev "prev_hash" prev then ev
      else setKey ev "prev_hash" (Json.str prev)) "event_hash" (chainHash ev prev)
  · rw [if_pos c2]; exact c2
  · rw [if_neg c2]; exact matchesStr_setKey_self _ _ _

theorem chainedRec_strip (ev : Rec) (prev : String) :
    stripHashFields (chainedRec ev prev) = stripHashFields ev := by
  unfold chainedRec
  by_cases c1 : matchesStr ev "prev_hash" prev
  · rw [if_pos c1]
    by_cases c2 : matchesStr ev "event_hash" (chainHash ev prev)
    · rw [if_pos c2]
    · rw [if_neg c2, stripHashFields_setKey_event]
  · rw [if_neg c1]
    by_cases c2 : matchesStr (setKey ev "prev_hash" (Json.str prev)) "event_hash" (chainHash ev prev)
    · rw [if_pos c2, stripHashFields_setKey_prev]
    · rw [if_neg c2, stripHashFields_setKey_event, stripHashFields_setKey_prev]

theorem chainHash_congr (ev ev' : Rec) (prev : String)
    (h : stripHashFields ev = stripHashFields ev') : chainHash ev prev = chainHash ev' prev := by
  unfold chainHash
  rw [h]

theorem verify_compute_go (events : List (String × Rec)) : ∀ prev : String,
    BuildVerify.verify_chain_go prev
      ((UpgradeWitnessLog.compute_chain_go prev events).map Prod.snd) = true := by
  induction events with
  | nil => intro prev; rfl
  | cons pe rest ih =>
    intro prev
    obtain ⟨p, ev⟩ := pe
    rw [compute_chain_go_cons, List.map_cons, verify_chain_go_cons,
        chainHash_congr _ _ _ (chainedRec_strip ev prev), chainedRec_prev, chainedRec_hash]
    simp only [Bool.not_true, Bool.false_eq_true, if_false]
    exact ih (chainHash ev prev)

/-- Claim C1: for every non-empty sequence of event records (JSON objects,
in ascending-identifier order), running compute_chain over them and then
verify_chain over the resulting records returns valid (true). -/
theorem claim_C1 (events : List (String × Rec)) (_hne : events ≠ []) :
    BuildVerify.verify_chain ((UpgradeWitnessLog.compute_chain events).map Prod.snd) = true :=
  verify_compute_go events zeros64

theorem claim_C1_witness :
    oneEvent ≠ [] ∧
    BuildVerify.verify_chain ((UpgradeWitnessLog.compute_chain oneEvent).map Prod.snd) = true :=
  ⟨by simp [oneEvent], claim_C1 oneEvent (by simp [oneEvent])⟩

theorem matchesStr_iff (ev : Rec) (k v : String) :
    matchesStr ev k v = true ↔ lookupKey ev k = some (Json.str v) := by
  constructor
  · exact matchesStr_of_true ev k v
  · intro h
    unfold matchesStr
    rw [h]
    simp

theorem specPrevFrom_one (prev : String) (e : Rec) (rest : List Rec) :
    specPrevFrom prev (e :: rest) 1 = chainHash e prev := rfl

theorem specPrevFrom_cons (prev : String) (e : Rec) (rest : List Rec) (i : Nat) :
    specPrevFrom prev (e :: rest) (i + 1) = specPrevFrom (chainHash e prev) rest i := by
  induction i with
  | zero => rfl
  | succ n ih =>
    show hexEncode (sha256 (bytesFromHex (specPrevFrom prev (e :: rest) (n + 1)) ++
        utf8Bytes (serializeJson (Json.obj (stripHashFields ((e :: rest).getD (n + 1) [])))))) =
      specPrevFrom (chainHash e prev) rest (n + 1)
    rw [ih, List.getD_cons_succ]
    rfl

theorem compute_chain_go_fields (events : List (String × Rec)) : ∀ (prev : String) (i : Nat),
    i < events.length →
    lookupKey (((UpgradeWitnessLog.compute_chain_go prev events).map Prod.snd).getD i []) "prev_hash"
      = some (Json.str (specPrevFrom prev (events.map Prod.snd) i)) ∧
    lookupKey (((UpgradeWitnessLog.compute_chain_go prev events).map Prod.snd).getD i []) "event_hash"
      = some (Json.str (specPrevFrom prev (events.map Prod.snd) (i + 1))) := by
  induction events with
  | nil =>
    intro prev i hi
    cases hi
  | cons pe rest ih =>
    intro prev i hi
    obtain ⟨p, ev⟩ := pe
    rw [compute_chain_go_cons, List.map_cons, List.map_cons]
    cases i with
    | zero =>
      constructor
      · rw [List.getD_cons_zero]
        exact matchesStr_of_true _ _ _ (chainedRec_prev ev prev)
      · rw [List.getD_cons_zero, specPrevFrom_one]
        exact matchesStr_of_true _ _ _ (chainedRec_hash ev prev)
    | succ n =>
      have hn : n < rest.length := by
        simpa using Nat.lt_of_succ_lt_succ hi
      have := ih (chainHash ev prev) n hn
      rw [List.getD_cons_succ, specPrevFrom_cons, specPrevFrom_cons]
      exact this

theorem verify_chain_go_iff (stored : List Rec) : ∀ prev : String,
    BuildVerify.verify_chain_go prev stored = true ↔
      ∀ i, i < stored.length →
        lookupKey (stored.getD i []) "prev_hash" = some (Json.str (specPrevFrom prev stored i)) ∧
        lookupKey (stored.getD i []) "event_hash" = some (Json.str (specPrevFrom prev stored (i + 1))) := by
  induction stored with
  | nil =>
    intro prev
    constructor
    · intro _ i hi
      cases hi
    · intro _
      rfl
  | cons ev rest ih =>
    intro prev
    rw [verify_chain_go_cons]
    constructor
    · intro h
      cases hm1 : matchesStr ev "prev_hash" prev with
      | false => rw [hm1] at h; cases h
      | true =>
        rw [hm1] at h
        cases hm2 : matchesStr ev "event_hash" (chainHash ev prev) with
        | false => rw [hm2] at h; cases h
        | true =>
          rw [hm2] at h
          simp only [Bool.not_true, Bool.false_eq_true, if_false] at h
          intro i hi
          cases i with
          | zero =>
            refine ⟨matchesStr_of_true _ _ _ hm1, ?_⟩
            rw [List.getD_cons_zero, specPrevFrom_one]
            exact matchesStr_of_true _ _ _ hm2
          | succ n =>
            have hn : n < rest.length := by simpa using Nat.lt_of_succ_lt_succ hi
            have := (ih (chainHash ev prev)).mp h n hn
            rw [List.getD_cons_succ, specPrevFrom_cons, specPrevFrom_cons]
            exact this
    · intro hP
      have h0 := hP 0 (Nat.succ_pos _)
      rw [List.getD_cons_zero] at h0
      have hm1 : matchesStr ev "prev_hash" prev = true :=
        (matchesStr_iff _ _ _).mpr h0.1
      have hm2 : matchesStr ev "event_hash" (chainHash ev prev) = true := by
        apply (matchesStr_iff _ _ _).mpr
        rw [← specPrevFrom_one prev ev rest]
        exact h0.2
      rw [hm1, hm2]
      simp only [Bool.not_true, Bool.false_eq_true, if_false]
      apply (ih (chainHash ev prev)).mpr
      intro n hn
      have := hP (n + 1) (by simpa using Nat.succ_lt_succ hn)
      rw [List.getD_cons_succ, specPrevFrom_cons, specPrevFrom_cons] at this
      exact this

/-- Claim C2: the chain pass sets event i's prev_hash to the 64-hex-zero
sentinel for i = 0 and to event i-1's event_hash otherwise (both equal the
running value specPrev, which starts at zeros64 and advances to each digest),
and sets event i's event_hash to the SHA-256 hex digest of the hex-decoded
running prev concatenated with the canonical bytes of the record with its
hash fields removed; verify_chain accepts a stored sequence exactly when
every stored prev_hash and event_hash equals these re-derived values. -/
theorem claim_C2 :
    (∀ (events : List (String × Rec)) (i : Nat), i < events.length →
       lookupKey (((UpgradeWitnessLog.compute_chain events).map Prod.snd).getD i []) "prev_hash"
         = some (Json.str (specPrev (events.map Prod.snd) i)) ∧
       lookupKey (((UpgradeWitnessLog.compute_chain events).map Prod.snd).getD i []) "event_hash"
         = some (Json.str (specPrev (events.map Prod.snd) (i + 1)))) ∧
    (∀ stored : List Rec,
       BuildVerify.verify_chain stored = true ↔
         ∀ i, i < stored.length →
           lookupKey (stored.getD i []) "prev_hash" = some (Json.str (specPrev stored i)) ∧
           lookupKey (stored.getD i []) "event_hash" = some (Json.str (specPrev stored (i + 1)))) :=
  ⟨fun events i hi => compute_chain_go_fields events zeros64 i hi,
   fun stored => verify_chain_go_iff stored zeros64⟩

theorem claim_C2_witness :
    0 < oneEvent.length ∧
    (lookupKey (((UpgradeWitnessLog.compute_chain oneEvent).map Prod.snd).getD 0 []) "prev_hash"
       = some (Json.str (specPrev (oneEvent.map Prod.snd) 0)) ∧
     lookupKey (((UpgradeWitnessLog.compute_chain oneEvent).map Prod.snd).getD 0 []) "event_hash"
       = some (Json.str (specPrev (oneEvent.map Prod.snd) 1))) :=
  ⟨by decide, claim_C2.1 oneEvent 0 (by decide)⟩

theorem hexVal_digit (c : Char) (h1 : 48 ≤ c.toNat) (h2 : c.toNat ≤ 57) :
    hexVal c = c.toNat - 48 := by
  show (if 48 ≤ c.toNat ∧ c.toNat ≤ 57 then c.toNat - 48
        else if 97 ≤ c.toNat ∧ c.toNat ≤ 102 then c.toNat - 87
        else if 65 ≤ c.toNat ∧ c.toNat ≤ 70 then c.toNat - 55 else 0) = c.toNat - 48
  rw [if_pos ⟨h1, h2⟩]

theorem hexVal_alpha (c : Char) (h1 : 97 ≤ c.toNat) (h2 : c.toNat ≤ 102) :
    hexVal c = c.toNat - 87 := by
  show (if 48 ≤ c.toNat ∧ c.toNat ≤ 57 then c.toNat - 48
        else if 97 ≤ c.toNat ∧ c.toNat ≤ 102 then c.toNat - 87
        else if 65 ≤ c.toNat ∧ c.toNat ≤ 70 then c.toNat - 55 else 0) = c.toNat - 87
  rw [if_neg (by omega), if_pos ⟨h1, h2⟩]

theorem hexVal_lt_16 (c : Char) (h : isLowerHexChar c = true) : hexVal c < 16 := by
  simp only [isLowerHexChar, Bool.or_eq_true, Bool.and_eq_true, decide_eq_true_eq] at h
  rcases h with ⟨h1, h2⟩ | ⟨h1, h2⟩
  · rw [hexVal_digit c h1 h2]
    omega
  · rw [hexVal_alpha c h1 h2]
    omega

theorem hexDigitChar_hexVal (c : Char) (h : isLowerHexChar c = true) : hexDigitChar (hexVal c) = c := by
  simp only [isLowerHexChar, Bool.or_eq_true, Bool.and_eq_true, decide_eq_true_eq] at h
  rcases h with ⟨h1, h2⟩ | ⟨h1, h2⟩
  · rw [hexVal_digit c h1 h2]
    unfold hexDigitChar
    rw [if_pos (by omega)]
    have he : 48 + (c.toNat - 48) = c.toNat := by omega
    rw [he, Char.ofNat_toNat]
  · rw [hexVal_alpha c h1 h2]
    unfold hexDigitChar
    rw [if_neg (by omega)]
    have he : 87 + (c.toNat - 87) = c.toNat := by omega
    rw [he, Char.ofNat_toNat]

theorem hexRound_fuel : ∀ (n : Nat) (cs : List Char), cs.length ≤ n →
    (∀ c ∈ cs, isLowerHexChar c = true) → cs.length % 2 = 0 →
    List.foldr (fun b acc => hexDigitChar (b / 16) :: hexDigitChar (b % 16) :: acc) []
      (bytesFromHexChars cs) = cs := by
  intro n
  induction n with
  | zero =>
    intro cs hle _ _
    have : cs = [] := List.eq_nil_of_length_eq_zero (Nat.le_zero.mp hle)
    subst this
    rfl
  | succ n ih =>
    intro cs hle hhex heven
    match cs with
    | [] => rfl
    | [c] => simp at heven
    | c1 :: c2 :: rest =>
      have h1 : isLowerHexChar c1 = true := hhex c1 (by simp)
      have h2 : isLowerHexChar c2 = true := hhex c2 (by simp)
      show hexDigitChar ((16 * hexVal c1 + hexVal c2) / 16) ::
           hexDigitChar ((16 * hexVal c1 + hexVal c2) % 16) ::
           List.foldr _ [] (bytesFromHexChars rest) = c1 :: c2 :: rest
      have d1 : (16 * hexVal c1 + hexVal c2) / 16 = hexVal c1 := by
        rw [Nat.mul_add_div (by norm_num), Nat.div_eq_of_lt (hexVal_lt_16 c2 h2), Nat.add_zero]
      have m1 : (16 * hexVal c1 + hexVal c2) % 16 = hexVal c2 := by
        rw [Nat.mul_add_mod]
        exact Nat.mod_eq_of_lt (hexVal_lt_16 c2 h2)
      rw [d1, m1, hexDigitChar_hexVal c1 h1, hexDigitChar_hexVal c2 h2]
      have hle' : rest.length ≤ n := by
        simp only [List.length_cons] at hle
        omega
      have heven' : rest.length % 2 = 0 := by
        simp only [List.length_cons] at heven
        omega
      rw [ih rest hle' (fun c hc => hhex c (by simp [hc])) heven']

theorem hexEncode_bytesFromHex (h : String) (hhex : ∀ c ∈ h.data, isLowerHexChar c = true)
    (heven : h.data.length % 2 = 0) : hexEncode (bytesFromHex h) = h := by
  unfold hexEncode bytesFromHex
  rw [hexRound_fuel h.data.length h.data (Nat.le_refl _) hhex heven]

theorem merklePairs_dup_fuel : ∀ (n : Nat) (l : List (List Nat)), l.length ≤ n →
    ∀ (hne : l ≠ []), l.length % 2 = 1 →
    UpgradeWitnessLog.merklePairs (l ++ [l.getLast hne]) = UpgradeWitnessLog.merklePairs l := by
  intro n
  induction n with
  | zero =>
    intro l hle hne _
    exact absurd (List.eq_nil_of_length_eq_zero (Nat.le_zero.mp hle)) hne
  | succ n ih =>
    intro l hle hne hodd
    match l with
    | [x] => rfl
    | x :: y :: rest =>
      have hrodd : rest.length % 2 = 1 := by
        simp only [List.length_cons] at hodd
        omega
      have hrne : rest ≠ [] := by
        intro hc
        rw [hc] at hrodd
        simp at hrodd
      have hlast : (x :: y :: rest).getLast hne = rest.getLast hrne := by
        rw [List.getLast_cons (by simp [hrne]), List.getLast_cons hrne]
      rw [hlast]
      show UpgradeWitnessLog.merklePairs (x :: y :: (rest ++ [rest.getLast hrne])) =
        sha256 (x ++ y) :: UpgradeWitnessLog.merklePairs rest
      rw [UpgradeWitnessLog.merklePairs]
      · congr 1
        apply ih rest ?_ hrne hrodd
        simp only [List.length_cons] at hle
        omega

/-- Claim C4 (amended): the Merkle root of the empty list is none; the root
of a single-element list [h] is h itself (the hex-decoded leaf re-encoded,
with no self-duplication and no hashing); and at every level that still
enters the pairing loop (two or more nodes) with an odd node count, the
final node is paired with itself (appending a copy of the last node leaves
the level's pairing unchanged). -/
theorem claim_C4 :
    UpgradeWitnessLog.merkle_root_hex [] = none ∧
    (∀ h : String, (∀ c ∈ h.data, isLowerHexChar c = true) → h.data.length % 2 = 0 →
       UpgradeWitnessLog.merkle_root_hex [h] = some h) ∧
    (∀ (l : List (List Nat)) (hne : l ≠ []), l.length % 2 = 1 →
       UpgradeWitnessLog.merklePairs (l ++ [l.getLast hne]) = UpgradeWitnessLog.merklePairs l) := by
  refine ⟨rfl, ?_, ?_⟩
  · intro h hhex heven
    show (if ([h] : List String).isEmpty then none else _) = some h
    rw [if_neg (by simp)]
    show some (hexEncode ((UpgradeWitnessLog.merkleLevelGo 1 [bytesFromHex h]).headD [])) = some h
    show some (hexEncode (bytesFromHex h)) = some h
    rw [hexEncode_bytesFromHex h hhex heven]
  · intro l hne hodd
    exact merklePairs_dup_fuel l.length l (Nat.le_refl _) hne hodd

/-- Claim C4, counterexample to the claim as stated: for the 64-character
digest string of a's, the code returns the leaf itself as the singleton
root, which differs from the claimed HASH(h || h). -/
theorem claim_C4_counterexample :
    UpgradeWitnessLog.merkle_root_hex [hexA] = some hexA ∧
    UpgradeWitnessLog.sha256_hex (bytesFromHex hexA ++ bytesFromHex hexA) ≠ hexA := by
  constructor
  · rfl
  · decide

theorem claim_C4_witness :
    (∀ c ∈ hexA.data, isLowerHexChar c = true) ∧ hexA.data.length % 2 = 0 ∧
    UpgradeWitnessLog.merkle_root_hex [hexA] = some hexA ∧
    (([[0], [1], [2]] : List (List Nat)) ≠ [] ∧
     UpgradeWitnessLog.merklePairs (([[0], [1], [2]] : List (List Nat)) ++
       [([[0], [1], [2]] : List (List Nat)).getLast (by simp)]) =
       UpgradeWitnessLog.merklePairs [[0], [1], [2]]) :=
  ⟨by decide, by decide,
   claim_C4.2.1 hexA (by decide) (by decide),
   by simp,
   claim_C4.2.2 [[0], [1], [2]] (by simp) (by decide)⟩

theorem charToNat_inj (a b : Char) (h : a.toNat = b.toNat) : a = b :=
  Char.eq_of_val_eq (UInt32.ext h)

theorem charsLe_cons (c d : Char) (cs ds : List Char) :
    charsLe (c :: cs) (d :: ds) =
      if c.toNat < d.toNat then true
      else if d.toNat < c.toNat then false
      else charsLe cs ds := rfl

theorem charsLe_total : ∀ as bs : List Char, charsLe as bs = false → charsLe bs as = true := by
  intro as
  induction as with
  | nil =>
    intro bs h
    simp [charsLe] at h
  | cons c cs ih =>
    intro bs h
    cases bs with
    | nil => rfl
    | cons d ds =>
      rw [charsLe_cons] at h
      rw [charsLe_cons]
      by_cases h1 : c.toNat < d.toNat
      · rw [if_pos h1] at h
        cases h
      · rw [if_neg h1] at h
        by_cases h2 : d.toNat < c.toNat
        · rw [if_pos h2]
        · rw [if_neg h2] at h
          rw [if_neg (by omega), if_neg (by omega)]
          exact ih ds h

theorem charsLe_antisymm : ∀ as bs : List Char,
    charsLe as bs = true → charsLe bs as = true → as = bs := by
  intro as
  induction as with
  | nil =>
    intro bs h1 h2
    cases bs with
    | nil => rfl
    | cons d ds => simp [charsLe] at h2
  | cons c cs ih =>
    intro bs h1 h2
    cases bs with
    | nil => simp [charsLe] at h1
    | cons d ds =>
      rw [charsLe_cons] at h1 h2
      by_cases g1 : c.toNat < d.toNat
      · rw [if_neg (by omega), if_pos g1] at h2
        cases h2
      · by_cases g2 : d.toNat < c.toNat
        · rw [if_neg g1, if_pos g2] at h1
          cases h1
        · rw [if_neg g1, if_neg g2] at h1
          rw [if_neg (by omega), if_neg (by omega)] at h2
          have hcd : c = d := charToNat_inj c d (by omega)
          rw [hcd, ih ds h1 h2]

theorem charsLe_trans : ∀ as bs cs : List Char,
    charsLe as bs = true → charsLe bs cs = true → charsLe as cs = true := by
  intro as
  induction as with
  | nil => intro bs cs _ _; rfl
  | cons a as' ih =>
    intro bs cs h1 h2
    cases bs with
    | nil => simp [charsLe] at h1
    | cons b bs' =>
      cases cs with
      | nil => simp [charsLe] at h2
      | cons c cs' =>
        rw [charsLe_cons] at h1 h2
        rw [charsLe_cons]
        by_cases g1 : a.toNat < b.toNat
        · by_cases g2 : b.toNat < c.toNat
          · rw [if_pos (by omega)]
          · rw [if_neg g2] at h2
            by_cases g3 : c.toNat < b.toNat
            · rw [if_pos g3] at h2; cases h2
            · rw [if_pos (by omega)]
        · rw [if_neg g1] at h1
          by_cases g1' : b.toNat < a.toNat
          · rw [if_pos g1'] at h1; cases h1
          · rw [if_neg g1'] at h1
            by_cases g2 : b.toNat < c.toNat
            · rw [if_pos (by omega)]
            · rw [if_neg g2] at h2
              by_cases g3 : c.toNat < b.toNat
              · rw [if_pos g3] at h2; cases h2
              · rw [if_neg g3] at h2
                rw [if_neg (by omega), if_neg (by omega)]
                exact ih bs' cs' h1 h2

theorem keyLe_total (a b : String) (h : keyLe a b = false) : keyLe b a = true :=
  charsLe_total a.data b.data h

theorem keyLe_antisymm (a b : String) (h1 : keyLe a b = true) (h2 : keyLe b a = true) : a = b := by
  cases a with
  | mk d1 =>
    cases b with
    | mk d2 =>
      have : d1 = d2 := charsLe_antisymm d1 d2 h1 h2
      rw [this]

theorem keyLe_trans (a b c : String) (h1 : keyLe a b = true) (h2 : keyLe b c = true) :
    keyLe a c = true :=
  charsLe_trans a.data b.data c.data h1 h2

theorem insertByKey_perm {α : Type} (p : String × α) (l : List (String × α)) :
    (insertByKey p l).Perm (p :: l) := by
  induction l with
  | nil => exact List.Perm.refl _
  | cons q qs ih =>
    show (if keyLe p.1 q.1 then p :: q :: qs else q :: insertByKey p qs).Perm (p :: q :: qs)
    by_cases h : keyLe p.1 q.1
    · rw [if_pos h]
    · rw [if_neg h]
      exact (ih.cons q).trans (List.Perm.swap p q qs)

theorem sortByKey_perm {α : Type} (l : List (String × α)) : (sortByKey l).Perm l := by
  induction l with
  | nil => exact List.Perm.refl _
  | cons p ps ih =>
    exact (insertByKey_perm p (sortByKey ps)).trans (ih.cons p)

theorem insertByKey_pairwise {α : Type} (p : String × α) (l : List (String × α))
    (hl : List.Pairwise (fun a b => keyLe a.1 b.1 = true) l) :
    List.Pairwise (fun a b => keyLe a.1 b.1 = true) (insertByKey p l) := by
  induction l with
  | nil => exact List.pairwise_singleton _ _
  | cons q qs ih =>
    show List.Pairwise _ (if keyLe p.1 q.1 then p :: q :: qs else q :: insertByKey p qs)
    rcases List.pairwise_cons.mp hl with ⟨hq, hqs⟩
    by_cases h : keyLe p.1 q.1
    · rw [if_pos h]
      apply List.pairwise_cons.mpr
      refine ⟨?_, hl⟩
      intro x hx
      rcases List.mem_cons.mp hx with hx | hx
      · rw [hx]; exact h
      · exact keyLe_trans _ _ _ h (hq x hx)
    · rw [if_neg h]
      apply List.pairwise_cons.mpr
      refine ⟨?_, ih hqs⟩
      intro x hx
      rcases List.mem_cons.mp ((insertByKey_perm p qs).mem_iff.mp hx) with hx | hx
      · rw [hx]
        exact keyLe_total _ _ (by revert h; cases keyLe p.1 q.1 <;> simp)
      · exact hq x hx

theorem sortByKey_pairwise {α : Type} (l : List (String × α)) :
    List.Pairwise (fun a b => keyLe a.1 b.1 = true) (sortByKey l) := by
  induction l with
  | nil => exact List.Pairwise.nil
  | cons p ps ih => exact insertByKey_pairwise p (sortByKey ps) ih

theorem insertByKey_of_le {α : Type} (p : String × α) (l : List (String × α))
    (h : ∀ x ∈ l, keyLe p.1 x.1 = true) : insertByKey p l = p :: l := by
  cases l with
  | nil => rfl
  | cons q qs =>
    show (if keyLe p.1 q.1 then p :: q :: qs else q :: insertByKey p qs) = p :: q :: qs
    rw [if_pos (h q (by simp))]

theorem sortByKey_of_pairwise {α : Type} (l : List (String × α))
    (h : List.Pairwise (fun a b => keyLe a.1 b.1 = true) l) : sortByKey l = l := by
  induction l with
  | nil => rfl
  | cons p ps ih =>
    rcases List.pairwise_cons.mp h with ⟨hp, hps⟩
    show insertByKey p (sortByKey ps) = p :: ps
    rw [ih hps]
    exact insertByKey_of_le p ps hp

theorem sortByKey_idem {α : Type} (l : List (String × α)) :
    sortByKey (sortByKey l) = sortByKey l :=
  sortByKey_of_pairwise _ (sortByKey_pairwise l)

theorem sortByKey_eq_of_perm {α : Type} (l1 l2 : List (String × α)) (hp : l1.Perm l2)
    (hnd : (l1.map Prod.fst).Nodup) : sortByKey l1 = sortByKey l2 := by
  haveI : IsAntisymm (String × α) (fun a b => keyLe a.1 b.1 = true ∧ a.1 ≠ b.1) :=
    ⟨fun a b hab hba => absurd (keyLe_antisymm _ _ hab.1 hba.1) hab.2⟩
  have hperm : (sortByKey l1).Perm (sortByKey l2) :=
    (sortByKey_perm l1).trans (hp.trans (sortByKey_perm l2).symm)
  have hnd2 : (l2.map Prod.fst).Nodup := ((hp.map Prod.fst).nodup_iff).mp hnd
  have hs1 : List.Pairwise (fun a b : String × α => keyLe a.1 b.1 = true ∧ a.1 ≠ b.1) (sortByKey l1) := by
    apply List.Pairwise.and (sortByKey_pairwise l1)
    have : ((sortByKey l1).map Prod.fst).Nodup :=
      (((sortByKey_perm l1).map Prod.fst).nodup_iff).mpr hnd
    exact List.pairwise_map.mp this
  have hs2 : List.Pairwise (fun a b : String × α => keyLe a.1 b.1 = true ∧ a.1 ≠ b.1) (sortByKey l2) := by
    apply List.Pairwise.and (sortByKey_pairwise l2)
    have : ((sortByKey l2).map Prod.fst).Nodup :=
      (((sortByKey_perm l2).map Prod.fst).nodup_iff).mpr hnd2
    exact List.pairwise_map.mp this
  exact List.eq_of_perm_of_sorted hperm hs1 hs2

theorem serializePairs_eq_map (kvs : List (String × Json)) :
    serializePairs kvs = kvs.map (fun p => (p.1, serializeJson p.2)) := by
  induction kvs with
  | nil => rfl
  | cons p rest ih =>
    obtain ⟨k, v⟩ := p
    show (k, serializeJson v) :: serializePairs rest = _
    rw [ih]
    rfl

theorem deepSortPairs_eq_map (kvs : List (String × Json)) :
    deepSortPairs kvs = kvs.map (fun p => (p.1, deepSort p.2)) := by
  induction kvs with
  | nil => rfl
  | cons p rest ih =>
    obtain ⟨k, v⟩ := p
    show (k, deepSort v) :: deepSortPairs rest = _
    rw [ih]
    rfl

theorem insertByKey_map {α β : Type} (f : α → β) (p : String × α) (l : List (String × α)) :
    insertByKey (p.1, f p.2) (l.map (fun q => (q.1, f q.2))) =
      (insertByKey p l).map (fun q => (q.1, f q.2)) := by
  induction l with
  | nil => rfl
  | cons q qs ih =>
    show (if keyLe p.1 q.1 then _ else _) = _
    by_cases h : keyLe p.1 q.1
    · rw [if_pos h]
      show _ = List.map _ (if keyLe p.1 q.1 then p :: q :: qs else q :: insertByKey p qs)
      rw [if_pos h]
      rfl
    · rw [if_neg h]
      show (q.1, f q.2) :: insertByKey (p.1, f p.2) (qs.map (fun q => (q.1, f q.2))) =
        List.map _ (if keyLe p.1 q.1 then p :: q :: qs else q :: insertByKey p qs)
      rw [if_neg h, ih]
      rfl

theorem sortByKey_map {α β : Type} (f : α → β) (l : List (String × α)) :
    sortByKey (l.map (fun q => (q.1, f q.2))) = (sortByKey l).map (fun q => (q.1, f q.2)) := by
  induction l with
  | nil => rfl
  | cons p ps ih =>
    show insertByKey (p.1, f p.2) (sortByKey (ps.map (fun q => (q.1, f q.2)))) = _
    rw [ih, insertByKey_map]
    rfl

mutual

theorem serialize_deepSort : ∀ j : Json, serializeJson (deepSort j) = serializeJson j
  | .null => rfl
  | .bool _ => rfl
  | .num _ => rfl
  | .str _ => rfl
  | .arr xs => by
    show "[" ++ serializeArr (deepSortList xs) ++ "]" = "[" ++ serializeArr xs ++ "]"
    rw [serializeArr_deepSortList xs]
  | .obj kvs => by
    show "\x7b" ++ joinObjMembers (sortByKey (serializePairs (sortByKey (deepSortPairs kvs)))) ++ "\x7d" =
      "\x7b" ++ joinObjMembers (sortByKey (serializePairs kvs)) ++ "\x7d"
    have hmid : sortByKey (serializePairs (sortByKey (deepSortPairs kvs))) =
        sortByKey (serializePairs kvs) := by
      rw [serializePairs_eq_map (sortByKey (deepSortPairs kvs)), sortByKey_map serializeJson,
          sortByKey_idem, ← sortByKey_map serializeJson, ← serializePairs_eq_map,
          serializePairs_deepSortPairs kvs]
    rw [hmid]

theorem serializeArr_deepSortList : ∀ xs : List Json, serializeArr (deepSortList xs) = serializeArr xs
  | [] => rfl
  | [x] => by
    show serializeJson (deepSort x) = serializeJson x
    exact serialize_deepSort x
  | x :: y :: rest => by
    show serializeJson (deepSort x) ++ "," ++ serializeArr (deepSort y :: deepSortList rest) =
      serializeJson x ++ "," ++ serializeArr (y :: rest)
    rw [serialize_deepSort x]
    have : deepSort y :: deepSortList rest = deepSortList (y :: rest) := rfl
    rw [this, serializeArr_deepSortList (y :: rest)]

theorem serializePairs_deepSortPairs : ∀ kvs : List (String × Json),
    serializePairs (deepSortPairs kvs) = serializePairs kvs
  | [] => rfl
  | (k, v) :: rest => by
    show (k, serializeJson (deepSort v)) :: serializePairs (deepSortPairs rest) =
      (k, serializeJson v) :: serializePairs rest
    rw [serialize_deepSort v, serializePairs_deepSortPairs rest]

end

theorem canonical_eq_of_deepSort (j1 j2 : Json) (h : deepSort j1 = deepSort j2) :
    UpgradeWitnessLog.canonical_bytes j1 = UpgradeWitnessLog.canonical_bytes j2 := by
  unfold UpgradeWitnessLog.canonical_bytes
  rw [← serialize_deepSort j1, ← serialize_deepSort j2, h]

theorem deepSort_obj_perm (kvs kvs' : List (String × Json)) (hp : kvs.Perm kvs')
    (hnd : (kvs.map Prod.fst).Nodup) : deepSort (Json.obj kvs) = deepSort (Json.obj kvs') := by
  show Json.obj (sortByKey (deepSortPairs kvs)) = Json.obj (sortByKey (deepSortPairs kvs'))
  congr 1
  rw [deepSortPairs_eq_map, deepSortPairs_eq_map]
  apply sortByKey_eq_of_perm
  · exact hp.map _
  · have he : (kvs.map (fun p => (p.1, deepSort p.2))).map Prod.fst = kvs.map Prod.fst := by
      rw [List.map_map]
      rfl
    rw [he]
    exact hnd

/-- Claim C9: records that are value-equal regardless of key insertion
order (equal canonical normal forms under recursive key sorting; in
particular object permutations with unique keys, at any nesting level)
canonicalize to byte-identical output, and every canonicalization routine
used for hashing and signing (upgrade_witness_log, build_verify,
sign_checkpoint) produces the same bytes for the same record. -/
theorem claim_C9 :
    (∀ j : Json, BuildVerify.canonical_bytes j = UpgradeWitnessLog.canonical_bytes j) ∧
    (∀ j : Json, SignCheckpoint.canonical_bytes j = UpgradeWitnessLog.canonical_bytes j) ∧
    (∀ j1 j2 : Json, deepSort j1 = deepSort j2 →
       UpgradeWitnessLog.canonical_bytes j1 = UpgradeWitnessLog.canonical_bytes j2) ∧
    (∀ kvs kvs' : List (String × Json), kvs.Perm kvs' → (kvs.map Prod.fst).Nodup →
       UpgradeWitnessLog.canonical_bytes (Json.obj kvs) =
         UpgradeWitnessLog.canonical_bytes (Json.obj kvs')) :=
  ⟨fun _ => rfl, fun _ => rfl, canonical_eq_of_deepSort,
   fun kvs kvs' hp hnd => canonical_eq_of_deepSort _ _ (deepSort_obj_perm kvs kvs' hp hnd)⟩

theorem claim_C9_witness :
    ([("b", Json.num 1), ("a", Json.null)] : List (String × Json)).Perm
      [("a", Json.null), ("b", Json.num 1)] ∧
    (([("b", Json.num 1), ("a", Json.null)] : List (String × Json)).map Prod.fst).Nodup ∧
    UpgradeWitnessLog.canonical_bytes (Json.obj [("b", Json.num 1), ("a", Json.null)]) =
      UpgradeWitnessLog.canonical_bytes (Json.obj [("a", Json.null), ("b", Json.num 1)]) :=
  ⟨List.Perm.swap _ _ _, by decide,
   claim_C9.2.2.2 _ _ (List.Perm.swap _ _ _) (by decide)⟩

theorem main_eq_ok (s : SysState) (b : Bool) (kvs : Rec)
    (hsig : BuildVerify.verify_checkpoint_signature s = .ok b)
    (hchk : BuildVerify.checkpointVal s = Json.obj kvs) :
    BuildVerify.main s = .ok (0, reportOf s b) := by
  have hsc : storedCheckpoint s = kvs := by
    unfold storedCheckpoint
    rw [hchk]
  unfold BuildVerify.main
  rw [hsig, hchk]
  unfold reportOf
  rw [hsc]
  rfl

theorem main_eq_error (s : SysState) (e : PyErr)
    (hsig : BuildVerify.verify_checkpoint_signature s = .error e) :
    BuildVerify.main s = .error e := by
  unfold BuildVerify.main
  rw [hsig]
  rfl

theorem main_ok_shape (s : SysState) (c : Nat) (r : Json)
    (h : BuildVerify.main s = .ok (c, r)) :
    ∃ (b : Bool) (kvs : Rec),
      BuildVerify.verify_checkpoint_signature s = .ok b ∧
      BuildVerify.checkpointVal s = Json.obj kvs ∧ c = 0 ∧ r = reportOf s b := by
  cases hsig : BuildVerify.verify_checkpoint_signature s with
  | error e =>
    rw [main_eq_error s e hsig] at h
    cases h
  | ok b =>
    cases hchk : BuildVerify.checkpointVal s with
    | obj kvs =>
      rw [main_eq_ok s b kvs hsig hchk] at h
      injection h with hp
      have hc : c = 0 := (congrArg Prod.fst hp).symm
      have hr : r = reportOf s b := (congrArg Prod.snd hp).symm
      exact ⟨b, kvs, rfl, rfl, hc, hr⟩
    | null =>
      have : BuildVerify.main s = .error .attributeError := by
        unfold BuildVerify.main
        rw [hsig, hchk]
        rfl
      rw [this] at h
      cases h
    | bool b' =>
      have : BuildVerify.main s = .error .attributeError := by
        unfold BuildVerify.main
        rw [hsig, hchk]
        rfl
      rw [this] at h
      cases h
    | num n' =>
      have : BuildVerify.main s = .error .attributeError := by
        unfold BuildVerify.main
        rw [hsig, hchk]
        rfl
      rw [this] at h
      cases h
    | str s' =>
      have : BuildVerify.main s = .error .attributeError := by
        unfold BuildVerify.main
        rw [hsig, hchk]
        rfl
      rw [this] at h
      cases h
    | arr xs =>
      have : BuildVerify.main s = .error .attributeError := by
        unfold BuildVerify.main
        rw [hsig, hchk]
        rfl
      rw [this] at h
      cases h

/-- Claim C3 (amended): full verification never recomputes a Merkle root and
performs no checkpoint comparison: whenever main completes, the report's
checkpoint object copies the stored checkpoint's merkle_root, event_count,
head_event_hash and generated_at verbatim, the chain.event_count it reports
is the stored checkpoint's event_count whenever that value is an integer or
a boolean (Python bool is a subclass of int, so it too passes the
isinstance(count, int) check; the parsed-event count is used only
otherwise), and no field of the report records a checkpoint-consistency
verdict. -/
theorem claim_C3 (s : SysState) (c : Nat) (r : Json)
    (h : BuildVerify.main s = .ok (c, r)) :
    jMember ((jMember r "checkpoint").getD Json.null) "merkle_root"
      = some (pyGetD (storedCheckpoint s) "merkle_root") ∧
    jMember ((jMember r "checkpoint").getD Json.null) "event_count"
      = some (pyGetD (storedCheckpoint s) "event_count") ∧
    jMember ((jMember r "checkpoint").getD Json.null) "head_event_hash"
      = some (pyGetD (storedCheckpoint s) "head_event_hash") ∧
    jMember ((jMember r "checkpoint").getD Json.null) "generated_at"
      = some (pyGetD (storedCheckpoint s) "generated_at") ∧
    jMember ((jMember r "chain").getD Json.null) "event_count"
      = some (match pyGetD (storedCheckpoint s) "event_count" with
          | Json.num n => Json.num n
          | Json.bool b => Json.bool b
          | _ => Json.num ((BuildVerify.parsedEvents s).length : Int)) := by
  obtain ⟨b, kvs, _, _, _, hr⟩ := main_ok_shape s c r h
  subst hr
  exact ⟨rfl, rfl, rfl, rfl, rfl⟩

/-- Claim C3, counterexample to the claim as stated: a stored checkpoint
claiming event_count 999 over a single parsed event yields a report whose
chain.event_count is the stored 999, i.e. a stored derived field is reported
as the chain's own re-derived value, and no disagreement is reported. -/
theorem claim_C3_counterexample :
    (BuildVerify.main stateCount999).map
        (fun p => jMember ((jMember p.2 "chain").getD Json.null) "event_count") =
      .ok (some (Json.num 999)) ∧
    (BuildVerify.parsedEvents stateCount999).length = 1 ∧ (999 : Int) ≠ 1 :=
  ⟨rfl, rfl, by decide⟩

/-- A boolean stored event_count is copied verbatim into chain.event_count,
as the Python isinstance(count, int) check accepts bools. -/
theorem chain_count_bool_copied :
    (BuildVerify.main stateCountBool).map
        (fun p => jMember ((jMember p.2 "chain").getD Json.null) "event_count") =
      .ok (some (Json.bool true)) := rfl

theorem claim_C3_witness :
    BuildVerify.main stateCount999 = .ok (0, reportOf stateCount999 false) ∧
    jMember ((jMember (reportOf stateCount999 false) "checkpoint").getD Json.null) "merkle_root"
      = some (pyGetD (storedCheckpoint stateCount999) "merkle_root") ∧
    BuildVerify.main stateCountBool = .ok (0, reportOf stateCountBool false) ∧
    jMember ((jMember (reportOf stateCountBool false) "chain").getD Json.null) "event_count"
      = some (match pyGetD (storedCheckpoint stateCountBool) "event_count" with
          | Json.num n => Json.num n
          | Json.bool b => Json.bool b
          | _ => Json.num ((BuildVerify.parsedEvents stateCountBool).length : Int)) :=
  ⟨rfl, (claim_C3 stateCount999 0 (reportOf stateCount999 false) rfl).1,
   rfl, (claim_C3 stateCountBool 0 (reportOf stateCountBool false) rfl).2.2.2.2⟩

/-- Claim C5: the code violates it. With all three files present and a
parsed signature JSON lacking the "signature" field,
verify_checkpoint_signature raises KeyError, which escapes uncaught and
aborts main (the whole report) instead of yielding signature_valid = false;
the missing-file paths do return false as claimed. -/
theorem claim_C5_eval :
    BuildVerify.verify_checkpoint_signature stateNoSigField = .error PyErr.keyError ∧
    BuildVerify.main stateNoSigField = .error PyErr.keyError ∧
    BuildVerify.verify_checkpoint_signature stateBroken = .ok false :=
  ⟨rfl, rfl, rfl⟩

/-- Claim C6: the code violates it. Whenever full verification completes,
its report's checkpoint object carries no age_seconds, considered_fresh or
freshness_threshold_seconds member at all — no freshness is computed — and
build_status's verification section, which reads exactly those keys from the
report, therefore always exposes null for checkpoint_age_seconds,
checkpoint_considered_fresh and checkpoint_freshness_threshold_seconds. -/
theorem claim_C6 (s : SysState) (c : Nat) (r : Json)
    (h : BuildVerify.main s = .ok (c, r)) :
    jMember ((jMember r "checkpoint").getD Json.null) "age_seconds" = none ∧
    jMember ((jMember r "checkpoint").getD Json.null) "considered_fresh" = none ∧
    jMember ((jMember r "checkpoint").getD Json.null) "freshness_threshold_seconds" = none ∧
    (∀ kvs : Rec, r = Json.obj kvs →
      BuildStatus.pyGetJ (BuildStatus.verification_section kvs) "checkpoint_age_seconds" = Json.null ∧
      BuildStatus.pyGetJ (BuildStatus.verification_section kvs) "checkpoint_considered_fresh" = Json.null ∧
      BuildStatus.pyGetJ (BuildStatus.verification_section kvs)
        "checkpoint_freshness_threshold_seconds" = Json.null) := by
  obtain ⟨b, kvs0, _, _, _, hr⟩ := main_ok_shape s c r h
  subst hr
  refine ⟨rfl, rfl, rfl, ?_⟩
  intro kvs hkvs
  injection hkvs with hk
  subst hk
  exact ⟨rfl, rfl, rfl⟩

theorem claim_C6_witness :
    BuildVerify.main stateCount999 = .ok (0, reportOf stateCount999 false) ∧
    jMember ((jMember (reportOf stateCount999 false) "checkpoint").getD Json.null) "age_seconds" = none ∧
    jMember ((jMember (reportOf stateCount999 false) "checkpoint").getD Json.null) "considered_fresh" = none :=
  ⟨rfl, (claim_C6 stateCount999 0 (reportOf stateCount999 false) rfl).1,
   (claim_C6 stateCount999 0 (reportOf stateCount999 false) rfl).2.1⟩

/-- Claim C7 (amended): full verification silently drops event files that
are unparsable (or whose JSON is not an object) and runs the chain check
over the remaining parsed records only: the reported hash_chain_valid is
verify_chain of exactly those records, so an unparsable file never makes the
chain check fail by itself. -/
theorem claim_C7 (s : SysState) (c : Nat) (r : Json)
    (h : BuildVerify.main s = .ok (c, r)) :
    jMember ((jMember r "chain").getD Json.null) "hash_chain_valid"
      = some (Json.bool (BuildVerify.verify_chain (BuildVerify.parsedEvents s))) := by
  obtain ⟨b, kvs, _, _, _, hr⟩ := main_ok_shape s c r h
  subst hr
  rfl

/-- Claim C7, counterexample to the claim as stated: an event-file set whose
second timestamp-named file is unparsable (read_json gives none) after one
correctly chained event is still reported hash_chain_valid = true — the
offending file is silently skipped rather than failing verification. -/
theorem claim_C7_counterexample :
    stateBadTail.eventReads.getD 1 (some Json.null) = none ∧
    (BuildVerify.main stateBadTail).map
        (fun p => jMember ((jMember p.2 "chain").getD Json.null) "hash_chain_valid") =
      .ok (some (Json.bool true)) := by
  constructor
  · rfl
  · have hv : BuildVerify.verify_chain (BuildVerify.parsedEvents stateBadTail) = true :=
      verify_compute_go oneEvent zeros64
    have hm : BuildVerify.main stateBadTail = .ok (0, reportOf stateBadTail false) :=
      main_eq_ok stateBadTail false [] rfl rfl
    rw [hm]
    show Except.ok (jMember ((jMember (reportOf stateBadTail false) "chain").getD Json.null)
      "hash_chain_valid") = .ok (some (Json.bool true))
    have hj : jMember ((jMember (reportOf stateBadTail false) "chain").getD Json.null)
        "hash_chain_valid"
        = some (Json.bool (BuildVerify.verify_chain (BuildVerify.parsedEvents stateBadTail))) := rfl
    rw [hj, hv]

theorem claim_C7_witness :
    BuildVerify.main stateBadTail = .ok (0, reportOf stateBadTail false) ∧
    jMember ((jMember (reportOf stateBadTail false) "chain").getD Json.null) "hash_chain_valid"
      = some (Json.bool (BuildVerify.verify_chain (BuildVerify.parsedEvents stateBadTail))) :=
  ⟨main_eq_ok stateBadTail false [] rfl rfl,
   claim_C7 stateBadTail 0 (reportOf stateBadTail false)
     (main_eq_ok stateBadTail false [] rfl rfl)⟩

/-- Claim C8 (amended): whenever a full-verification invocation runs to
completion it exits with status 0, regardless of signature validity,
hash-chain validity or anything else; no staleness is computed at all. -/
theorem claim_C8 (s : SysState) (c : Nat) (r : Json)
    (h : BuildVerify.main s = .ok (c, r)) : c = 0 := by
  obtain ⟨b, kvs, _, _, hc, _⟩ := main_ok_shape s c r h
  exact hc

/-- Claim C8, counterexample to the claim as stated: a state whose only
event record breaks the chain and whose signature files are absent --- both
hash_chain_valid and signature_valid are false in the report --- still
completes with exit status 0. -/
theorem claim_C8_counterexample :
    BuildVerify.main stateBroken = .ok (0, reportOf stateBroken false) ∧
    jMember ((jMember (reportOf stateBroken false) "chain").getD Json.null) "hash_chain_valid"
      = some (Json.bool false) ∧
    jMember ((jMember (reportOf stateBroken false) "checkpoint").getD Json.null) "signature_valid"
      = some (Json.bool false) :=
  ⟨main_eq_ok stateBroken false [] rfl rfl, rfl, rfl⟩

theorem claim_C8_witness :
    BuildVerify.main stateBroken = .ok (0, reportOf stateBroken false) ∧ (0 : Nat) = 0 :=
  ⟨main_eq_ok stateBroken false [] rfl rfl,
   claim_C8 stateBroken 0 (reportOf stateBroken false) (main_eq_ok stateBroken false [] rfl rfl)⟩

/-- Claim C10 (amended): windowed checkpoint files are not immutable. Every
checkpointing pass (re)writes the windowed checkpoint file for every cadence
multiple within range, stamping it with the pass's own generated_at, so a
later pass over the same events at a different time overwrites each
previously written windowed checkpoint with changed contents; the latest
checkpoint is likewise rewritten with the new time. -/
theorem claim_C10 (event_hashes : List String) (cadence : Nat) (now : String) (k : Nat)
    (hc : 0 < cadence) (hk : 1 ≤ k) (hlen : k * cadence ≤ event_hashes.length) :
    (∃ kvs : Rec,
       (UpgradeWitnessLog.checkpointFileName (k * cadence), Json.obj kvs) ∈
         UpgradeWitnessLog.write_checkpoints event_hashes cadence now ∧
       lookupKey kvs "generated_at" = some (Json.str now)) ∧
    (event_hashes ≠ [] → ∃ kvs : Rec,
       ("latest.json", Json.obj kvs) ∈ UpgradeWitnessLog.write_checkpoints event_hashes cadence now ∧
       lookupKey kvs "generated_at" = some (Json.str now)) := by
  constructor
  · have htlen : (event_hashes.take (k * cadence)).length = k * cadence := by
      rw [List.length_take]
      exact Nat.min_eq_left hlen
    have hpos : 0 < k * cadence := Nat.mul_pos hk hc
    have hne : (event_hashes.take (k * cadence)).isEmpty = false := by
      cases hemp : (event_hashes.take (k * cadence)).isEmpty
      · rfl
      · have := List.isEmpty_iff.mp hemp
        rw [this] at htlen
        simp at htlen
        omega
    obtain ⟨rt, hroot⟩ : ∃ rt,
        UpgradeWitnessLog.merkle_root_hex (event_hashes.take (k * cadence)) = some rt := by
      unfold UpgradeWitnessLog.merkle_root_hex
      rw [if_neg (by rw [hne]; simp)]
      exact ⟨_, rfl⟩
    refine ⟨[("schema_version", Json.str "1.0.0"), ("type", Json.str "merkle_checkpoint"),
        ("algorithm", Json.str "sha256"), ("event_count", Json.num (k * cadence : Int)),
        ("head_event_hash", Json.str (UpgradeWitnessLog.pyLast (event_hashes.take (k * cadence)))),
        ("merkle_root", Json.str rt), ("generated_at", Json.str now),
        ("cadence", Json.num (cadence : Int))], ?_, ?_⟩
    · unfold UpgradeWitnessLog.write_checkpoints
      apply List.mem_append_left
      apply List.mem_filterMap.mpr
      refine ⟨k * cadence, ?_, ?_⟩
      · unfold UpgradeWitnessLog.multiplesOf
        apply List.mem_map.mpr
        refine ⟨k - 1, List.mem_range.mpr ?_, ?_⟩
        · have hkd : k ≤ event_hashes.length / cadence := (Nat.le_div_iff_mul_le hc).mpr hlen
          omega
        · have hk1 : k - 1 + 1 = k := by omega
          rw [hk1]
      · show (match UpgradeWitnessLog.merkle_root_hex (event_hashes.take (k * cadence)) with
          | none => none
          | some root => some (UpgradeWitnessLog.checkpointFileName (k * cadence), Json.obj
              [("schema_version", Json.str "1.0.0"), ("type", Json.str "merkle_checkpoint"),
               ("algorithm", Json.str "sha256"), ("event_count", Json.num (k * cadence : Int)),
               ("head_event_hash",
                 Json.str (UpgradeWitnessLog.pyLast (event_hashes.take (k * cadence)))),
               ("merkle_root", Json.str root), ("generated_at", Json.str now),
               ("cadence", Json.num (cadence : Int))])) = _
        rw [hroot]
    · rfl
  · intro hne'
    have hline : event_hashes.isEmpty = false := by
      cases h : event_hashes.isEmpty
      · rfl
      · exact absurd (List.isEmpty_iff.mp h) hne'
    refine ⟨[("schema_version", Json.str "1.0.0"), ("type", Json.str "merkle_checkpoint_latest"),
        ("algorithm", Json.str "sha256"), ("event_count", Json.num (event_hashes.length : Int)),
        ("head_event_hash", Json.str (UpgradeWitnessLog.pyLast event_hashes)),
        ("merkle_root", match UpgradeWitnessLog.merkle_root_hex event_hashes with
           | some r => Json.str r
           | none => Json.null),
        ("generated_at", Json.str now)], ?_, ?_⟩
    · unfold UpgradeWitnessLog.write_checkpoints
      apply List.mem_append_right
      rw [if_neg (by rw [hline]; simp)]
      simp
    · rfl

/-- Claim C10, counterexample to the claim as stated: running the
checkpoint pass twice over the same ten event hashes, first at time t1 and
then at time t2, overwrites the windowed checkpoint file
events_000010.json — its stored generated_at changes from t1 to t2, so its
contents after the second pass differ from the contents the first pass
wrote. -/
theorem claim_C10_counterexample :
    (lookupKey (applyWrites [] (UpgradeWitnessLog.write_checkpoints tenHashes 10 "t1"))
        "events_000010.json").map (fun j => jMember j "generated_at")
      = some (some (Json.str "t1")) ∧
    (lookupKey (applyWrites (applyWrites [] (UpgradeWitnessLog.write_checkpoints tenHashes 10 "t1"))
        (UpgradeWitnessLog.write_checkpoints tenHashes 10 "t2"))
        "events_000010.json").map (fun j => jMember j "generated_at")
      = some (some (Json.str "t2")) ∧
    lookupKey (applyWrites (applyWrites [] (UpgradeWitnessLog.write_checkpoints tenHashes 10 "t1"))
        (UpgradeWitnessLog.write_checkpoints tenHashes 10 "t2")) "events_000010.json"
      ≠ lookupKey (applyWrites [] (UpgradeWitnessLog.write_checkpoints tenHashes 10 "t1"))
        "events_000010.json" := by
  refine ⟨rfl, rfl, ?_⟩
  intro heq
  have hmap := congrArg (Option.map (fun j => jMember j "generated_at")) heq
  have h1 : (lookupKey (applyWrites [] (UpgradeWitnessLog.write_checkpoints tenHashes 10 "t1"))
      "events_000010.json").map (fun j => jMember j "generated_at")
      = some (some (Json.str "t1")) := rfl
  have h2 : (lookupKey (applyWrites (applyWrites []
        (UpgradeWitnessLog.write_checkpoints tenHashes 10 "t1"))
        (UpgradeWitnessLog.write_checkpoints tenHashes 10 "t2"))
        "events_000010.json").map (fun j => jMember j "generated_at")
      = some (some (Json.str "t2")) := rfl
  rw [h1, h2] at hmap
  injection hmap with ha
  injection ha with hb
  injection hb with hs
  exact absurd hs (by decide)

theorem claim_C10_witness :
    0 < 10 ∧ 1 ≤ 1 ∧ 1 * 10 ≤ tenHashes.length ∧
    ((∃ kvs : Rec,
        (UpgradeWitnessLog.checkpointFileName (1 * 10), Json.obj kvs) ∈
          UpgradeWitnessLog.write_checkpoints tenHashes 10 "t1" ∧
        lookupKey kvs "generated_at" = some (Json.str "t1")) ∧
     (tenHashes ≠ [] → ∃ kvs : Rec,
        ("latest.json", Json.obj kvs) ∈ UpgradeWitnessLog.write_checkpoints tenHashes 10 "t1" ∧
        lookupKey kvs "generated_at" = some (Json.str "t1"))) :=
  ⟨by decide, by decide, by decide,
   claim_C10 tenHashes 10 "t1" 1 (by decide) (by decide) (by decide)⟩

/-- Sanity anchor: the embedded SHA-256 reproduces the FIPS 180-4 test
vector for the empty message. -/
theorem sha256_empty_vector :
    hexEncode (sha256 []) = "e3b0c44298fc1c149afbf4c8996fb92427ae41e4649b934ca495991b7852b855" := by
  decide

/-- Sanity anchor: the embedded SHA-256 reproduces the FIPS 180-4 test
vector for "abc". -/
theorem sha256_abc_vector :
    hexEncode (sha256 (utf8Bytes "abc")) =
      "ba7816bf8f01cfea414140de5dae2223b00361a396177a9cb410ff61f20015ad" := by
  decide
